import Mathlib

/-!
Verification of the OnBloom SlackBot matching core: a shallow embedding of
the commonality scorer (`src/api/webhooks.ts`, class `CommonalityFinder`),
the webhook ranking step, the housing conversation-state service, and the
conversation memory service, together with theorems settling the frozen
claims about them.

External collaborators (Qloo API, LLM text generation, Redis) are modelled
as oracle functions returning `Except Unit _`; a thrown error is `.error ()`
and the stores are passed explicitly.  Machine numbers are modelled as `ℚ`
(scores, affinities) and `ℕ` (timestamps in milliseconds).
-/

/-- ASCII lowering, as JavaScript `toLowerCase` on the identifiers used here. -/
def strLower (s : String) : String := ⟨s.data.map Char.toLower⟩

/-- `hasPre needle hay`: `needle` is a leading segment of `hay`. -/
def hasPre : List Char → List Char → Bool
  | [], _ => true
  | _ :: _, [] => false
  | a :: as, b :: bs => a == b && hasPre as bs

/-- `hasSub needle hay`: `needle` occurs contiguously inside `hay`
(JavaScript `String.prototype.includes`). -/
def hasSub (needle : List Char) : List Char → Bool
  | [] => hasPre needle []
  | b :: bs => hasPre needle (b :: bs) || hasSub needle bs

/-- Substring test on `String`s. -/
def hasSubStr (needle hay : String) : Bool := hasSub needle.data hay.data

/-- Deduplication keeping the first occurrence of each element, in order —
the behaviour of JavaScript `[...new Set(xs)]`. -/
def dedupFirstAux (seen : List String) : List String → List String
  | [] => []
  | x :: xs =>
    if seen.contains x then dedupFirstAux seen xs
    else x :: dedupFirstAux (x :: seen) xs

/-- `[...new Set(xs)]`. -/
def dedupFirst (l : List String) : List String := dedupFirstAux [] l

/-- JavaScript string truthiness for optional string fields: `undefined`
and the empty string are falsy. -/
def truthyStr : Option String → Option String
  | none => none
  | some s => if s = "" then none else some s

/-- Splitting on a single-character separator, as JavaScript
`split(' ')` / `split(',')`: empty segments are kept and the empty string
splits to `[""]`. -/
def splitCharAux (sep : Char) : List Char → List Char → List String
  | [], acc => [⟨acc.reverse⟩]
  | c :: cs, acc =>
    if c == sep then ⟨acc.reverse⟩ :: splitCharAux sep cs []
    else splitCharAux sep cs (c :: acc)

/-- JavaScript `s.split(sep)` for a one-character separator. -/
def splitChar (sep : Char) (s : String) : List String :=
  splitCharAux sep s.data []

/-! ## Data model (`src/api/webhooks.ts` interfaces) -/

/-- `interface Employee` of `webhooks.ts`. -/
structure Employee where
  name : String
  email : String
  department : String
  role : String
  location : String
  culturalHeritage : Option (List String)
  ageRange : Option String
  genderIdentity : Option String
deriving DecidableEq, Repr

/-- `interface Person` of `webhooks.ts`, including the optional fields the
webhook handler may merge in from the Notion enrichment step. -/
structure Person where
  id : String
  name : String
  role : String
  department : String
  email : String
  location : Option String
  culturalHeritage : Option (List String)
  ageRange : Option String
  genderIdentity : Option String
deriving DecidableEq, Repr

/-- A Qloo entity search result (the dynamically-typed `any` payload,
narrowed to the fields the scorer reads: `id`, `name`, `category`).
`id` is optional because the code filters out null/undefined ids. -/
structure Entity where
  id : Option String
  name : String
  category : String
deriving DecidableEq, Repr

/-- A Qloo tag search result (fields read: `id`, `name`). -/
structure QTag where
  id : Option String
  name : String
deriving DecidableEq, Repr

/-- A Qloo compare/insights result (fields read: `name`, `affinity`). -/
structure Insight where
  name : String
  affinity : Option ℚ
deriving DecidableEq, Repr

/-- `interface CommonalityResult` of `webhooks.ts`. -/
structure CommonalityResult where
  personId : String
  personName : String
  commonalities : List String
  qlooInsights : String
  connectionScore : ℚ
deriving DecidableEq, Repr

/-- The two-valued gender format accepted by Qloo. -/
inductive QlooGender where
  | male
  | female
deriving DecidableEq, Repr

/-- The parameter record built for the `getInsights` call
(`filterType`/`take` are the constants the code always sends). -/
structure InsightsParams where
  filterType : String
  entities : List String
  tags : List String
  age : Option String
  gender : Option QlooGender
  location : Option String
  take : ℕ
deriving DecidableEq, Repr

/-- Oracle view of the external collaborators used by one scoring run:
each call either returns a payload or throws (`.error ()`). -/
structure QlooEnv where
  search : String → Except Unit (List Entity)
  searchTags : String → Except Unit (List QTag)
  compareAnalysis : List String → List String → Except Unit (List Insight)
  getInsights : InsightsParams → Except Unit (List Insight)
  generateText : String → Except Unit String

/-! ## `CommonalityFinder` pure helpers -/

/-- `mapAgeRange` of `webhooks.ts`: fixed bracket table with default
`25_to_35`. -/
def mapAgeRange (ageRange : String) : String :=
  if ageRange = "20-24" then "18_to_24"
  else if ageRange = "25-29" then "25_to_35"
  else if ageRange = "30-34" then "25_to_35"
  else if ageRange = "35-39" then "36_to_55"
  else if ageRange = "40-44" then "36_to_55"
  else if ageRange = "45-49" then "36_to_55"
  else if ageRange = "50-54" then "36_to_55"
  else if ageRange = "55+" then "56_plus"
  else "25_to_35"

/-- `mapGenderToQloo` of `webhooks.ts`: lowercase, exact matches first,
then substring matches, defaulting to `female`. -/
def mapGenderToQloo (genderIdentity : String) : QlooGender :=
  let lowerGender := strLower genderIdentity
  if lowerGender = "male" ∨ lowerGender = "man" then .male
  else if lowerGender = "female" ∨ lowerGender = "woman" then .female
  else if hasSubStr "man" lowerGender ∨ hasSubStr "male" lowerGender then .male
  else if hasSubStr "woman" lowerGender ∨ hasSubStr "female" lowerGender then .female
  else .female

/-- The fixed leadership keyword list of `areSimilarRoles`. -/
def leadershipKeywords : List String :=
  ["vp", "director", "head", "chief", "manager", "lead"]

/-- `areSimilarRoles` of `webhooks.ts`: both role strings must contain at
least one leadership keyword (case-insensitive substring). -/
def areSimilarRoles (role1 role2 : String) : Bool :=
  let role1Lower := strLower role1
  let role2Lower := strLower role2
  (leadershipKeywords.any fun kw => hasSubStr kw role1Lower) &&
  (leadershipKeywords.any fun kw => hasSubStr kw role2Lower)

/-- `findWorkplaceCommonalities` of `webhooks.ts`. -/
def findWorkplaceCommonalities (employee : Employee) (person : Person) :
    List String :=
  (if employee.department = person.department then
    ["Both work in " ++ employee.department] else [])
  ++ (if areSimilarRoles employee.role person.role then
    ["Similar leadership roles"] else [])
  ++ (if hasSubStr "London" employee.location then
    ["Both based in or work with London office"] else [])

/-- Test used by the insights filter: `insight.affinity && insight.affinity > 0.5`
(an absent affinity is falsy; a present one must exceed `0.5`). -/
def affinityAboveHalf (i : Insight) : Bool :=
  match i.affinity with
  | none => false
  | some a => decide ((1 : ℚ) / 2 < a)

/-- Test used by the score boost: `a.affinity > 0.7` (absent compares false). -/
def affinityAboveSeventy (i : Insight) : Bool :=
  match i.affinity with
  | none => false
  | some a => decide ((7 : ℚ) / 10 < a)

/-- The `{ commonInterests, affinityData }` record returned by
`findQlooCommonalities`. -/
structure QlooCommonalities where
  commonInterests : List String
  affinityData : List Insight
deriving DecidableEq, Repr

/-- `calculateConnectionScore` of `webhooks.ts`:
`min(0.2·|workplace| + 0.3·|commonInterests| + min(0.1·|affinityData|, 0.3)
 + 0.1·|{affinity > 0.7}|, 1)`. -/
def calculateConnectionScore (qlooCommonalities : QlooCommonalities)
    (workplaceCommonalities : List String) : ℚ :=
  min ((workplaceCommonalities.length : ℚ) * 0.2
    + (qlooCommonalities.commonInterests.length : ℚ) * 0.3
    + min ((qlooCommonalities.affinityData.length : ℚ) * 0.1) 0.3
    + ((qlooCommonalities.affinityData.filter affinityAboveSeventy).length : ℚ) * 0.1) 1

/-! ## Signal gathering (`gatherPersonData`, `extractInterestKeywords`) -/

/-- Common read-only view of `Employee | Person` — the union the gathering
methods accept (only these five fields are read). -/
structure ProfileView where
  name : String
  role : String
  department : String
  location : Option String
  culturalHeritage : Option (List String)
deriving DecidableEq, Repr

/-- View of an `Employee` as a profile (its `location` is a required field). -/
def Employee.profile (e : Employee) : ProfileView :=
  ⟨e.name, e.role, e.department, some e.location, e.culturalHeritage⟩

/-- View of a `Person` as a profile. -/
def Person.profile (p : Person) : ProfileView :=
  ⟨p.name, p.role, p.department, p.location, p.culturalHeritage⟩

/-- The `searchQueries` array built by `gatherPersonData`: name, role,
department, then (truthy) location, then the cultural-heritage terms. -/
def searchQueries (person : ProfileView) : List String :=
  [person.name, person.role, person.department]
  ++ (match truthyStr person.location with | some l => [l] | none => [])
  ++ (match person.culturalHeritage with | some hs => hs | none => [])

/-- The per-heritage expansion inside `extractInterestKeywords`: the lowered
term plus fixed related keywords for `Asian`/`Indigenous` heritages
(case-sensitive `includes` on the original string, as in the code). -/
def heritageKeywords (heritage : String) : List String :=
  [strLower heritage]
  ++ (if hasSubStr "Asian" heritage then ["asian", "cuisine", "culture"] else [])
  ++ (if hasSubStr "Indigenous" heritage then
    ["indigenous", "native", "culture"] else [])

/-- `extractInterestKeywords` of `webhooks.ts`: role words, department,
expanded heritage terms, first comma-segment of the location, deduplicated
keeping first occurrences. -/
def extractInterestKeywords (person : ProfileView) : List String :=
  dedupFirst (
    (if person.role = "" then [] else splitChar ' ' (strLower person.role))
    ++ (if person.department = "" then [] else [strLower person.department])
    ++ (match person.culturalHeritage with
        | some hs => (hs.map heritageKeywords).flatten
        | none => [])
    ++ (match truthyStr person.location with
        | some l => [strLower ((splitChar ',' l).headD "")]
        | none => []))

/-- The `{ entities, tags }` record returned by `gatherPersonData`. -/
structure PersonData where
  entities : List Entity
  tags : List QTag
deriving DecidableEq, Repr

/-- The entity-search loop of `gatherPersonData`: each query has its own
try/catch, so a failed query is skipped and the loop continues. -/
def gatherEntitiesLoop (env : QlooEnv) : List String → List Entity
  | [] => []
  | q :: rest =>
    match env.search q with
    | .ok rs => rs ++ gatherEntitiesLoop env rest
    | .error _ => gatherEntitiesLoop env rest

/-- The tag-search loop of `gatherPersonData`: the single try/catch sits
OUTSIDE the `for` loop, so the first failing keyword aborts the remaining
tag searches; tags already pushed are kept. -/
def gatherTagsLoop (env : QlooEnv) (acc : List QTag) : List String → List QTag
  | [] => acc
  | q :: rest =>
    match env.searchTags q with
    | .ok rs => gatherTagsLoop env (acc ++ rs) rest
    | .error _ => acc

/-- `gatherPersonData` of `webhooks.ts`: entity searches over the first 3
queries, tag searches over the first 3 interest keywords. -/
def gatherPersonData (env : QlooEnv) (person : ProfileView) : PersonData :=
  { entities := gatherEntitiesLoop env ((searchQueries person).take 3),
    tags := gatherTagsLoop env [] ((extractInterestKeywords person).take 3) }

/-! ## `findQlooCommonalities` -/

/-- Step 1 of `findQlooCommonalities` (Analysis Compare): guarded by both
sides having entities and both id lists being nonempty after filtering nulls;
the call has its own try/catch, so a thrown comparison contributes nothing. -/
def compareStep (env : QlooEnv) (employeeData personData : PersonData) :
    List String × List Insight :=
  if employeeData.entities ≠ [] ∧ personData.entities ≠ [] then
    let employeeEntityIds := (employeeData.entities.take 5).filterMap Entity.id
    let personEntityIds := (personData.entities.take 5).filterMap Entity.id
    if employeeEntityIds ≠ [] ∧ personEntityIds ≠ [] then
      match env.compareAnalysis employeeEntityIds personEntityIds with
      | .ok rs =>
        let topResults := rs.take 3
        (topResults.map (fun r => "Both might enjoy: " ++ r.name), topResults)
      | .error _ => ([], [])
    else ([], [])
  else ([], [])

/-- The `validEntityIds` list of step 2: 3 employee + 2 person entity ids,
nulls filtered after concatenation. -/
def validEntityIds (employeeData personData : PersonData) : List String :=
  ((employeeData.entities.take 3) ++ (personData.entities.take 2)).filterMap Entity.id

/-- The `validTagIds` list of step 2: 3 employee + 2 person tag ids. -/
def validTagIds (employeeData personData : PersonData) : List String :=
  ((employeeData.tags.take 3) ++ (personData.tags.take 2)).filterMap QTag.id

/-- The insights request of step 2 (constants `urn:entity:brand` and
`take: 10` as sent by the code; demographics from the EMPLOYEE only). -/
def mkInsightsParams (employeeData personData : PersonData)
    (employee : Employee) : InsightsParams :=
  { filterType := "urn:entity:brand",
    entities := validEntityIds employeeData personData,
    tags := validTagIds employeeData personData,
    age := (truthyStr employee.ageRange).map mapAgeRange,
    gender := (truthyStr employee.genderIdentity).map mapGenderToQloo,
    location := truthyStr (some employee.location),
    take := 10 }

/-- The commonality strings emitted from the insights response: the code
slices to the FIRST 3 results and only then filters by `affinity > 0.5`. -/
def sharedAffinityNames (results : List Insight) : List String :=
  ((results.take 3).filter affinityAboveHalf).map
    (fun i => "Shared affinity for: " ++ i.name)

/-- The affinity entries pushed from the insights response (same slice and
filter as `sharedAffinityNames`). -/
def sharedAffinityData (results : List Insight) : List Insight :=
  (results.take 3).filter affinityAboveHalf

/-- Step 3: category overlap between the two entity sets, iterated in the
employee set's insertion order (JavaScript `Set` keeps first occurrences). -/
def commonCategoryNames (employeeData personData : PersonData) : List String :=
  ((dedupFirst (employeeData.entities.map Entity.category)).filter
    (fun cat => (personData.entities.map Entity.category).contains cat)).map
    (fun cat => "Shared interest in: " ++ cat)

/-- Step 4: tag-name overlap between the two tag sets. -/
def commonTagNames (employeeData personData : PersonData) : List String :=
  ((dedupFirst (employeeData.tags.map QTag.name)).filter
    (fun tag => (personData.tags.map QTag.name).contains tag)).map
    (fun tag => "Both associated with: " ++ tag)

/-- `findQlooCommonalities` of `webhooks.ts`.  The outer try/catch means a
thrown `getInsights` call skips steps 3 and 4; the compare call's failure is
contained by its inner try/catch; the final list is deduplicated
(`[...new Set(commonInterests)]`) on every path. -/
def findQlooCommonalities (env : QlooEnv) (employeeData personData : PersonData)
    (employee : Employee) : QlooCommonalities :=
  let c := compareStep env employeeData personData
  if validEntityIds employeeData personData ≠ [] ∨
      validTagIds employeeData personData ≠ [] then
    match env.getInsights (mkInsightsParams employeeData personData employee) with
    | .error _ =>
      { commonInterests := dedupFirst c.1, affinityData := c.2 }
    | .ok rs =>
      { commonInterests := dedupFirst (c.1 ++ sharedAffinityNames rs
          ++ commonCategoryNames employeeData personData
          ++ commonTagNames employeeData personData),
        affinityData := c.2 ++ sharedAffinityData rs }
  else
    { commonInterests := dedupFirst (c.1
        ++ commonCategoryNames employeeData personData
        ++ commonTagNames employeeData personData),
      affinityData := c.2 }

/-! ## Per-person pipeline and the batch loop -/

/-- The prompt handed to the text-generation collaborator by
`generateQlooInsights` (abridged to its dynamic content; it feeds an opaque
oracle). -/
def insightPrompt (employee : Employee) (person : Person)
    (qlooCommonalities : QlooCommonalities)
    (workplaceCommonalities : List String) : String :=
  "Based on the following information, create a brief, natural insight about what "
  ++ employee.name ++ " and " ++ person.name
  ++ " might have in common or could connect over: Workplace commonalities: "
  ++ String.intercalate "; " workplaceCommonalities
  ++ " Taste/Interest commonalities: "
  ++ String.intercalate "; " qlooCommonalities.commonInterests

/-- `generateQlooInsights` of `webhooks.ts`: LLM text (trimmed) on success,
templated fallback naming the first workplace commonality on failure. -/
def generateQlooInsights (env : QlooEnv) (employee : Employee) (person : Person)
    (qlooCommonalities : QlooCommonalities)
    (workplaceCommonalities : List String) : String :=
  match env.generateText
      (insightPrompt employee person qlooCommonalities workplaceCommonalities) with
  | .ok text => text.trim
  | .error _ =>
    employee.name ++ " and " ++ person.name ++ " could connect over their "
    ++ (truthyStr workplaceCommonalities.head?).getD "work at the company" ++ "."

/-- `findPersonCommonalities` of `webhooks.ts`: the per-candidate pipeline. -/
def findPersonCommonalities (env : QlooEnv) (employee : Employee)
    (person : Person) : CommonalityResult :=
  let workplaceCommonalities := findWorkplaceCommonalities employee person
  let employeeData := gatherPersonData env employee.profile
  let personData := gatherPersonData env person.profile
  let qlooCommonalities := findQlooCommonalities env employeeData personData employee
  let qlooInsights := generateQlooInsights env employee person
    qlooCommonalities workplaceCommonalities
  let connectionScore := calculateConnectionScore qlooCommonalities
    workplaceCommonalities
  { personId := person.id, personName := person.name,
    commonalities := workplaceCommonalities ++ qlooCommonalities.commonInterests,
    qlooInsights := qlooInsights,
    connectionScore := connectionScore }

/-- The fallback result pushed by `findCommonalities`' catch clause. -/
def fallbackResult (person : Person) : CommonalityResult :=
  { personId := person.id, personName := person.name,
    commonalities := ["Same company"],
    qlooInsights := "Unable to fetch Qloo insights at this time",
    connectionScore := 0.1 }

/-- One iteration of the `findCommonalities` loop: the per-candidate try/catch
over an abstract pipeline outcome (`.error ()` models any thrown error). -/
def processPerson (outcome : Person → Except Unit CommonalityResult)
    (person : Person) : CommonalityResult :=
  match outcome person with
  | .ok r => r
  | .error _ => fallbackResult person

/-- The sequential `for` loop of `findCommonalities`. -/
def processPeople (outcome : Person → Except Unit CommonalityResult) :
    List Person → List CommonalityResult
  | [] => []
  | p :: rest => processPerson outcome p :: processPeople outcome rest

/-- Stable insertion into a descending-sorted list: a new element passes all
strictly greater scores and lands before the first not-greater one, so
earlier input elements stay first among equal scores. -/
def insertDesc {α : Type} (score : α → ℚ) (r : α) : List α → List α
  | [] => [r]
  | x :: xs => if score r < score x then x :: insertDesc score r xs else r :: x :: xs

/-- Stable descending sort by a score projection — the behaviour of
JavaScript `Array.prototype.sort` (stable per ECMAScript 2019) with the
comparator `(a, b) => score(b) - score(a)`. -/
def sortDesc {α : Type} (score : α → ℚ) : List α → List α
  | [] => []
  | r :: rs => insertDesc score r (sortDesc score rs)

/-- `findCommonalities` of `webhooks.ts`, over an abstract per-candidate
pipeline outcome: process each person with an isolating try/catch, then sort
by connection score, highest first. -/
def findCommonalitiesWith (outcome : Person → Except Unit CommonalityResult)
    (people : List Person) : List CommonalityResult :=
  sortDesc CommonalityResult.connectionScore (processPeople outcome people)

/-- `findCommonalities` with the concrete per-candidate pipeline. -/
def findCommonalities (env : QlooEnv) (employee : Employee)
    (people : List Person) : List CommonalityResult :=
  findCommonalitiesWith
    (fun person => .ok (findPersonCommonalities env employee person)) people

/-! ## Webhook ranking (`createWebhookServer`, lines 146–157) -/

/-- `interface EnhancedPerson` (the person annotated with scorer output). -/
structure EnhancedPerson where
  person : Person
  qlooCommonalities : List String
  qlooInsights : String
  connectionScore : ℚ
deriving DecidableEq, Repr

/-- The `enhancedPeople` map of the webhook handler: each input person is
annotated with its `CommonalityResult` found by `personId`, with empty/zero
defaults when absent. -/
def enhancePeople (commonalities : List CommonalityResult)
    (people : List Person) : List EnhancedPerson :=
  people.map fun person =>
    match commonalities.find? (fun c => c.personId == person.id) with
    | some c =>
      { person := person, qlooCommonalities := c.commonalities,
        qlooInsights := c.qlooInsights, connectionScore := c.connectionScore }
    | none =>
      { person := person, qlooCommonalities := [], qlooInsights := "",
        connectionScore := 0 }

/-- The final ranked people list: `enhancedPeople.sort((a, b) =>
b.connectionScore - a.connectionScore)`. -/
def rankPeople (commonalities : List CommonalityResult)
    (people : List Person) : List EnhancedPerson :=
  sortDesc EnhancedPerson.connectionScore (enhancePeople commonalities people)

/-! ## Conversation state service (`conversation-state.ts`)

The Redis store for one `(userId, channelId)` key is passed explicitly as an
`Option HousingConversationState`; times are milliseconds as `ℕ` (JavaScript
`Date.now() - timestamp` can only be negative under clock skew, where both
the code and the `ℕ` truncation treat the state as fresh). -/

/-- The `stage` union of `HousingConversationState`. -/
inductive HousingStage where
  | detected
  | awaiting_location
  | awaiting_preferences
  | complete
deriving DecidableEq, Repr

/-- `HousingConversationState` of `conversation-state.ts` (the nested
`demographics` object flattened into its two fields). -/
structure HousingConversationState where
  stage : HousingStage
  location : Option String
  age : Option String
  ethnicity : Option String
  preferences : Option (List String)
  timestamp : ℕ
deriving DecidableEq, Repr

/-- `STATE_TTL = 10 * 60` seconds. -/
def STATE_TTL : ℕ := 10 * 60

/-- `getHousingState`: returns `(result, store after the call)`.  A record
older than `STATE_TTL` seconds is cleared (`clearHousingState`) and reported
absent. -/
def getHousingState (now : ℕ)
    (stored : Option HousingConversationState) :
    Option HousingConversationState × Option HousingConversationState :=
  match stored with
  | none => (none, none)
  | some state =>
    if now - state.timestamp > STATE_TTL * 1000 then (none, none)
    else (some state, some state)

/-- `updateHousingState`: read through `getHousingState`; if absent (also
when stale), return `null` without writing; otherwise apply the partial
update over the current state and stamp `timestamp := now` (the spread order
`{...currentState, ...updates, timestamp: Date.now()}`). -/
def updateHousingState (now : ℕ)
    (updates : HousingConversationState → HousingConversationState)
    (stored : Option HousingConversationState) :
    Option HousingConversationState × Option HousingConversationState :=
  match getHousingState now stored with
  | (none, stored1) => (none, stored1)
  | (some currentState, _) =>
    let newState := { updates currentState with timestamp := now }
    (some newState, some newState)

/-- The housing keyword vocabulary of `parseHousingQuery`. -/
def housingKeywords : List String :=
  ["where", "live", "living", "housing", "home", "house", "apartment",
   "rent", "neighborhood", "area", "move", "moving", "relocate",
   "from", "based", "located", "stay", "reside", "residence"]

/-- The `isHousingQuery` test of `parseHousingQuery`: some housing keyword is
a substring of the lowercased message. -/
def isHousingQuery (message : String) : Bool :=
  housingKeywords.any fun keyword => hasSubStr keyword (strLower message)

/-- Which branch of `handleHousingConversation` fires (the stage handlers'
bodies are external-call driven and elided; the label records the dispatch). -/
inductive HousingAction where
  | notHousing
  | freshDetected
  | locationStage
  | preferencesStage
  | unhandledStage
deriving DecidableEq, Repr

/-- The fresh state written on first detection of a housing intent:
`{ stage: 'detected', timestamp: Date.now() }`. -/
def freshDetectedState (now : ℕ) : HousingConversationState :=
  { stage := .detected, location := none, age := none,
    ethnicity := none, preferences := none, timestamp := now }

/-- The dispatch skeleton of `HousingService.handleHousingConversation`:
read the state (purging a stale record); with no state, a housing-intent
message creates a fresh `detected` state and prompts for a location; with a
state, dispatch on its stage. -/
def handleHousingConversation (now : ℕ) (message : String)
    (stored : Option HousingConversationState) :
    HousingAction × Option HousingConversationState :=
  match getHousingState now stored with
  | (none, stored1) =>
    if isHousingQuery message then
      (.freshDetected, some (freshDetectedState now))
    else (.notHousing, stored1)
  | (some state, stored1) =>
    match state.stage with
    | .detected => (.locationStage, stored1)
    | .awaiting_location => (.locationStage, stored1)
    | .awaiting_preferences => (.preferencesStage, stored1)
    | .complete => (.unhandledStage, stored1)

/-! ## Memory service (`memory.ts`) -/

/-- The `role` union of a chat `Message`. -/
inductive MessageRole where
  | user
  | assistant
deriving DecidableEq, Repr

/-- `interface Message` of `memory.ts`. -/
structure Message where
  role : MessageRole
  content : String
  timestamp : ℕ
deriving DecidableEq, Repr

/-- `interface ConversationHistory` of `memory.ts`. -/
structure ConversationHistory where
  messages : List Message
  lastUpdated : ℕ
deriving DecidableEq, Repr

/-- `MAX_MESSAGES = 20`. -/
def MAX_MESSAGES : ℕ := 20

/-- `getKey` of `memory.ts` (a falsy — absent or empty — channel id selects
the DM key). -/
def getKey (userId : String) (channelId : Option String) : String :=
  match truthyStr channelId with
  | some channel => "conversation:" ++ channel ++ ":" ++ userId
  | none => "conversation:dm:" ++ userId

/-- JavaScript `slice(-n)` for `n > 0`: the last `min(n, length)` elements. -/
def lastN {α : Type} (n : ℕ) (l : List α) : List α := l.drop (l.length - n)

/-- `getConversationHistory` of `memory.ts`. -/
def getConversationHistory (store : String → Option ConversationHistory)
    (userId : String) (channelId : Option String) : List Message :=
  match store (getKey userId channelId) with
  | none => []
  | some data => data.messages

/-- `addMessage` of `memory.ts`: append the new message to the stored list
(empty when absent), keep only the last `MAX_MESSAGES`, write back. -/
def addMessage (now : ℕ) (store : String → Option ConversationHistory)
    (userId : String) (message : Message) (channelId : Option String) :
    String → Option ConversationHistory :=
  let key := getKey userId channelId
  let messages :=
    (match store key with | none => [] | some existing => existing.messages)
    ++ [message]
  let trimmedMessages := lastN MAX_MESSAGES messages
  fun k =>
    if k = key then some { messages := trimmedMessages, lastUpdated := now }
    else store k

/-- A sequence of `addMessage` calls (time, user, message, channel) applied
in order. -/
def applyAdds (store : String → Option ConversationHistory) :
    List (ℕ × String × Message × Option String) →
    (String → Option ConversationHistory)
  | [] => store
  | (now, userId, message, channelId) :: rest =>
    applyAdds (addMessage now store userId message channelId) rest

/-- The store with no conversation records. -/
def emptyStore : String → Option ConversationHistory := fun _ => none

/-! ## Sorting lemmas -/

theorem insertDesc_perm {α : Type} (score : α → ℚ) (r : α) (l : List α) :
    (insertDesc score r l).Perm (r :: l) := by
  induction l with
  | nil => simp [insertDesc]
  | cons x xs ih =>
    simp only [insertDesc]
    split
    · exact (ih.cons x).trans (List.Perm.swap r x xs)
    · exact List.Perm.refl _

theorem sortDesc_perm {α : Type} (score : α → ℚ) (l : List α) :
    (sortDesc score l).Perm l := by
  induction l with
  | nil => simp [sortDesc]
  | cons r rs ih => exact (insertDesc_perm score r _).trans (ih.cons r)

theorem sortDesc_length {α : Type} (score : α → ℚ) (l : List α) :
    (sortDesc score l).length = l.length :=
  (sortDesc_perm score l).length_eq

theorem insertDesc_filter {α : Type} (score : α → ℚ) (q : ℚ) (r : α)
    (l : List α) :
    (insertDesc score r l).filter (fun x => decide (score x = q))
      = (r :: l).filter (fun x => decide (score x = q)) := by
  induction l with
  | nil => rfl
  | cons x xs ih =>
    simp only [insertDesc]
    split
    case isTrue h =>
      by_cases hx : score x = q
      · have hr : ¬ score r = q := by
          intro hrq
          rw [hrq, ← hx] at h
          exact lt_irrefl _ h
        calc ((x :: insertDesc score r xs).filter fun y => decide (score y = q))
            = x :: ((insertDesc score r xs).filter fun y => decide (score y = q)) := by
              simp [List.filter_cons, hx]
          _ = x :: ((r :: xs).filter fun y => decide (score y = q)) := by rw [ih]
          _ = x :: (xs.filter fun y => decide (score y = q)) := by
              simp [List.filter_cons, hr]
          _ = ((r :: x :: xs).filter fun y => decide (score y = q)) := by
              simp [List.filter_cons, hr, hx]
      · calc ((x :: insertDesc score r xs).filter fun y => decide (score y = q))
            = ((insertDesc score r xs).filter fun y => decide (score y = q)) := by
              simp [List.filter_cons, hx]
          _ = ((r :: xs).filter fun y => decide (score y = q)) := ih
          _ = ((r :: x :: xs).filter fun y => decide (score y = q)) := by
              by_cases hrq : score r = q <;>
                simp [List.filter_cons, hx, hrq]
    case isFalse h => rfl

theorem sortDesc_filter {α : Type} (score : α → ℚ) (q : ℚ) (l : List α) :
    (sortDesc score l).filter (fun x => decide (score x = q))
      = l.filter (fun x => decide (score x = q)) := by
  induction l with
  | nil => rfl
  | cons r rs ih =>
    simp only [sortDesc]
    rw [insertDesc_filter]
    simp only [List.filter_cons]
    rw [ih]

theorem insertDesc_sorted {α : Type} (score : α → ℚ) (r : α) (l : List α)
    (hl : l.Sorted (fun a b => score b ≤ score a)) :
    (insertDesc score r l).Sorted (fun a b => score b ≤ score a) := by
  induction l with
  | nil => simp [insertDesc]
  | cons x xs ih =>
    rw [List.sorted_cons] at hl
    simp only [insertDesc]
    split
    case isTrue h =>
      rw [List.sorted_cons]
      refine ⟨?_, ih hl.2⟩
      intro y hy
      rcases List.mem_cons.mp ((insertDesc_perm score r xs).mem_iff.mp hy)
        with rfl | hy2
      · exact le_of_lt h
      · exact hl.1 y hy2
    case isFalse h =>
      rw [List.sorted_cons]
      refine ⟨?_, List.sorted_cons.mpr hl⟩
      intro y hy
      rcases List.mem_cons.mp hy with rfl | hy
      · exact not_lt.mp h
      · exact (hl.1 y hy).trans (not_lt.mp h)

theorem sortDesc_sorted {α : Type} (score : α → ℚ) (l : List α) :
    (sortDesc score l).Sorted (fun a b => score b ≤ score a) := by
  induction l with
  | nil => simp [sortDesc]
  | cons r rs ih => exact insertDesc_sorted score r _ ih

/-! ## Loop and score lemmas -/

theorem processPeople_eq_map (outcome : Person → Except Unit CommonalityResult)
    (people : List Person) :
    processPeople outcome people = people.map (processPerson outcome) := by
  induction people with
  | nil => rfl
  | cons p rest ih => simp [processPeople, ih]

theorem findCommonalitiesWith_length
    (outcome : Person → Except Unit CommonalityResult) (people : List Person) :
    (findCommonalitiesWith outcome people).length = people.length := by
  rw [findCommonalitiesWith, sortDesc_length, processPeople_eq_map,
    List.length_map]

theorem calculateConnectionScore_nonneg (qc : QlooCommonalities)
    (wc : List String) : 0 ≤ calculateConnectionScore qc wc := by
  unfold calculateConnectionScore
  refine le_min ?_ (by norm_num)
  have h3 : (0 : ℚ) ≤ min ((qc.affinityData.length : ℚ) * 0.1) 0.3 :=
    le_min (by positivity) (by norm_num)
  have h1 : (0 : ℚ) ≤ (wc.length : ℚ) * 0.2 := by positivity
  have h2 : (0 : ℚ) ≤ (qc.commonInterests.length : ℚ) * 0.3 := by positivity
  have h4 : (0 : ℚ)
      ≤ ((qc.affinityData.filter affinityAboveSeventy).length : ℚ) * 0.1 := by
    positivity
  linarith

theorem calculateConnectionScore_le_one (qc : QlooCommonalities)
    (wc : List String) : calculateConnectionScore qc wc ≤ 1 :=
  min_le_right _ _

theorem findPersonCommonalities_connectionScore (env : QlooEnv)
    (employee : Employee) (person : Person) :
    (findPersonCommonalities env employee person).connectionScore
      = calculateConnectionScore
          (findQlooCommonalities env (gatherPersonData env employee.profile)
            (gatherPersonData env person.profile) employee)
          (findWorkplaceCommonalities employee person) := rfl

/-! ## Concrete inputs used by witnesses and counterexamples -/

/-- An environment whose every external call throws. -/
def trivialEnv : QlooEnv :=
  { search := fun _ => .error (), searchTags := fun _ => .error (),
    compareAnalysis := fun _ _ => .error (), getInsights := fun _ => .error (),
    generateText := fun _ => .error () }

/-- A concrete employee (no leadership role, no London, no demographics). -/
def employee0 : Employee :=
  { name := "Alice", email := "alice@onbloom.test", department := "Design",
    role := "ic", location := "", culturalHeritage := none, ageRange := none,
    genderIdentity := none }

/-- A concrete candidate person. -/
def person0 : Person :=
  { id := "P0", name := "Pat", role := "writer", department := "Sales",
    email := "pat@onbloom.test", location := none, culturalHeritage := none,
    ageRange := none, genderIdentity := none }

/-! ## Claim theorems -/

/-- C1: for every employee and list of N candidates, `findCommonalities`
returns exactly N results, one per input candidate matched by `personId`,
and every result's connection score lies in [0,1].  The per-candidate
outcome is abstract but constrained to be either the concrete pipeline's
result or a thrown error (the catch clause's fallback). -/
theorem C1_findCommonalities_one_result_per_candidate_scores_bounded
    (env : QlooEnv) (employee : Employee) (people : List Person)
    (outcome : Person → Except Unit CommonalityResult)
    (houtcome : ∀ p, outcome p = .ok (findPersonCommonalities env employee p)
      ∨ outcome p = .error ()) :
    (findCommonalitiesWith outcome people).length = people.length
    ∧ ((findCommonalitiesWith outcome people).map
        CommonalityResult.personId).Perm (people.map Person.id)
    ∧ ∀ r ∈ findCommonalitiesWith outcome people,
        0 ≤ r.connectionScore ∧ r.connectionScore ≤ 1 := by
  have hmap := processPeople_eq_map outcome people
  refine ⟨findCommonalitiesWith_length outcome people, ?_, ?_⟩
  · have hperm := (sortDesc_perm CommonalityResult.connectionScore
      (processPeople outcome people)).map CommonalityResult.personId
    have hids : (processPeople outcome people).map CommonalityResult.personId
        = people.map Person.id := by
      rw [hmap, List.map_map]
      refine List.map_congr_left ?_
      intro p _
      rcases houtcome p with h | h <;>
        simp [processPerson, h, findPersonCommonalities, fallbackResult]
    rw [findCommonalitiesWith]
    exact hids ▸ hperm
  · intro r hr
    have hmem : r ∈ processPeople outcome people :=
      (sortDesc_perm CommonalityResult.connectionScore _).mem_iff.mp hr
    rw [hmap] at hmem
    obtain ⟨p, _, rfl⟩ := List.mem_map.mp hmem
    rcases houtcome p with h | h
    · rw [processPerson, h]
      rw [findPersonCommonalities_connectionScore]
      exact ⟨calculateConnectionScore_nonneg _ _,
        calculateConnectionScore_le_one _ _⟩
    · rw [processPerson, h]
      refine ⟨by norm_num [fallbackResult], by norm_num [fallbackResult]⟩

/-- Witness for C1 at a concrete environment and one-candidate list. -/
theorem C1_witness :
    (findCommonalitiesWith
      (fun p => Except.ok (findPersonCommonalities trivialEnv employee0 p))
      [person0]).length = 1 :=
  (C1_findCommonalities_one_result_per_candidate_scores_bounded
    trivialEnv employee0 [person0]
    (fun p => Except.ok (findPersonCommonalities trivialEnv employee0 p))
    (fun _ => Or.inl rfl)).1

/-- The connection-score formula read off the spec:
`min(0.2·w + 0.3·c + min(0.1·a, 0.3) + 0.1·h, 1)` over the four counts. -/
def scoreOfCounts (w c a h : ℕ) : ℚ :=
  min ((w : ℚ) * 0.2 + (c : ℚ) * 0.3 + min ((a : ℚ) * 0.1) 0.3
    + (h : ℚ) * 0.1) 1

/-- C2: the connection score equals the spec formula over the counts, is
monotonically non-decreasing in each count, stays in [0,1] with a hard
ceiling of 1, and the 10/10/10 high-affinity input yields exactly 1. -/
theorem C2_connectionScore_formula_monotone_capped :
    (∀ qc wc, calculateConnectionScore qc wc
        = scoreOfCounts wc.length qc.commonInterests.length
            qc.affinityData.length
            (qc.affinityData.filter affinityAboveSeventy).length)
    ∧ (∀ w c a h w2 c2 a2 h2, w ≤ w2 → c ≤ c2 → a ≤ a2 → h ≤ h2 →
        scoreOfCounts w c a h ≤ scoreOfCounts w2 c2 a2 h2)
    ∧ (∀ qc wc, 0 ≤ calculateConnectionScore qc wc
        ∧ calculateConnectionScore qc wc ≤ 1)
    ∧ calculateConnectionScore
        ⟨List.replicate 10 "shared taste",
          List.replicate 10 ⟨"item", some 0.9⟩⟩
        (List.replicate 10 "workplace") = 1 := by
  have hp : affinityAboveSeventy ⟨"item", some 0.9⟩ = true := by
    norm_num [affinityAboveSeventy]
  refine ⟨fun qc wc => rfl, ?_, fun qc wc =>
    ⟨calculateConnectionScore_nonneg qc wc,
      calculateConnectionScore_le_one qc wc⟩, ?_⟩
  case refine_2 =>
    simp only [calculateConnectionScore, List.filter_replicate, hp, if_true,
      List.length_replicate]
    norm_num [min_def]
  intro w c a h w2 c2 a2 h2 hw hc ha hh
  unfold scoreOfCounts
  refine min_le_min ?_ le_rfl
  have hw2 : (w : ℚ) ≤ w2 := Nat.cast_le.mpr hw
  have hc2 : (c : ℚ) ≤ c2 := Nat.cast_le.mpr hc
  have ha2 : (a : ℚ) ≤ a2 := Nat.cast_le.mpr ha
  have hh2 : (h : ℚ) ≤ h2 := Nat.cast_le.mpr hh
  have hmin : min ((a : ℚ) * 0.1) 0.3 ≤ min ((a2 : ℚ) * 0.1) 0.3 :=
    min_le_min (by nlinarith) le_rfl
  nlinarith [hmin]

/-- Witness for C2's monotone part at concrete counts, with the saturated
concrete input. -/
theorem C2_witness :
    scoreOfCounts 1 0 0 0 ≤ scoreOfCounts 2 1 1 1
    ∧ calculateConnectionScore
        ⟨List.replicate 10 "shared taste",
          List.replicate 10 ⟨"item", some 0.9⟩⟩
        (List.replicate 10 "workplace") = 1 :=
  ⟨C2_connectionScore_formula_monotone_capped.2.1 1 0 0 0 2 1 1 1
      (by norm_num) (by norm_num) (by norm_num) (by norm_num),
    C2_connectionScore_formula_monotone_capped.2.2.2⟩

theorem processPeople_getD (outcome : Person → Except Unit CommonalityResult)
    (people : List Person) (d : CommonalityResult) (j : ℕ)
    (hj : j < people.length) :
    (processPeople outcome people).getD j d
      = processPerson outcome (people.get ⟨j, hj⟩) := by
  rw [processPeople_eq_map]
  rw [List.getD_eq_getElem _ d (by simpa using hj)]
  simp

/-- C3: a thrown per-candidate pipeline error yields exactly the fallback
result (`["Same company"]`, the fixed apology string, score 0.1) for that
candidate, every other candidate's result is untouched, and the fallback
still appears in the sorted batch output — the batch is never aborted. -/
theorem C3_pipeline_error_gives_fallback_and_batch_continues
    (outcome : Person → Except Unit CommonalityResult) (people : List Person)
    (i : ℕ) (hi : i < people.length)
    (herr : outcome (people.get ⟨i, hi⟩) = .error ()) :
    (processPeople outcome people).length = people.length
    ∧ (processPeople outcome people).getD i
        (fallbackResult (people.get ⟨i, hi⟩))
      = { personId := (people.get ⟨i, hi⟩).id,
          personName := (people.get ⟨i, hi⟩).name,
          commonalities := ["Same company"],
          qlooInsights := "Unable to fetch Qloo insights at this time",
          connectionScore := 0.1 }
    ∧ (∀ j (hj : j < people.length),
        (processPeople outcome people).getD j
            (fallbackResult (people.get ⟨i, hi⟩))
          = processPerson outcome (people.get ⟨j, hj⟩))
    ∧ fallbackResult (people.get ⟨i, hi⟩)
        ∈ findCommonalitiesWith outcome people := by
  refine ⟨?_, ?_, ?_, ?_⟩
  · rw [processPeople_eq_map, List.length_map]
  · rw [processPeople_getD outcome people _ i hi, processPerson, herr]
    rfl
  · intro j hj
    exact processPeople_getD outcome people _ j hj
  · have hfb : fallbackResult (people.get ⟨i, hi⟩)
        = processPerson outcome (people.get ⟨i, hi⟩) := by
      rw [processPerson, herr]
    rw [findCommonalitiesWith,
      (sortDesc_perm CommonalityResult.connectionScore _).mem_iff, hfb,
      processPeople_eq_map]
    exact List.mem_map_of_mem _ (people.get_mem _ _)

/-- Witness for C3: one candidate whose pipeline outcome throws. -/
theorem C3_witness :
    (processPeople (fun _ => Except.error ()) [person0]).getD 0
        (fallbackResult person0)
      = { personId := "P0", personName := "Pat",
          commonalities := ["Same company"],
          qlooInsights := "Unable to fetch Qloo insights at this time",
          connectionScore := 0.1 } :=
  (C3_pipeline_error_gives_fallback_and_batch_continues
    (fun _ => Except.error ()) [person0] 0 (by decide) rfl).2.1

/-- C4: both descending sorts in the pipeline — the scorer's result sort and
the webhook's final people sort — are stable: filtering the output to any
fixed score value returns those entries in their original input order, and
the outputs are sorted descending by connection score. -/
theorem C4_sorts_are_stable_descending
    (outcome : Person → Except Unit CommonalityResult) (people : List Person)
    (commonalities : List CommonalityResult) (q : ℚ) :
    ((findCommonalitiesWith outcome people).filter
        fun r => decide (r.connectionScore = q))
      = ((processPeople outcome people).filter
        fun r => decide (r.connectionScore = q))
    ∧ (findCommonalitiesWith outcome people).Sorted
        (fun a b => b.connectionScore ≤ a.connectionScore)
    ∧ ((rankPeople commonalities people).filter
        fun r => decide (r.connectionScore = q))
      = ((enhancePeople commonalities people).filter
        fun r => decide (r.connectionScore = q))
    ∧ (rankPeople commonalities people).Sorted
        (fun a b => b.connectionScore ≤ a.connectionScore) :=
  ⟨sortDesc_filter _ q _, sortDesc_sorted _ _,
    sortDesc_filter _ q _, sortDesc_sorted _ _⟩

/-- C5: a state record older than 600 seconds is never advanced: reading it
returns absence and deletes it, an update through the read refuses to write,
the handler treats it exactly as no state, and an in-scope (housing-intent)
message starts a fresh `detected` flow. -/
theorem C5_stale_state_absent_purged_fresh_flow
    (now : ℕ) (s : HousingConversationState) (message : String)
    (updates : HousingConversationState → HousingConversationState)
    (hstale : now - s.timestamp > STATE_TTL * 1000) :
    getHousingState now (some s) = (none, none)
    ∧ updateHousingState now updates (some s) = (none, none)
    ∧ handleHousingConversation now message (some s)
        = handleHousingConversation now message none
    ∧ (isHousingQuery message = true →
        handleHousingConversation now message (some s)
          = (.freshDetected, some (freshDetectedState now))) := by
  have hget : getHousingState now (some s) = (none, none) := by
    simp [getHousingState, hstale]
  refine ⟨hget, ?_, ?_, ?_⟩
  · rw [updateHousingState, hget]
  · rw [handleHousingConversation, hget]
    rfl
  · intro hq
    rw [handleHousingConversation, hget]
    simp [hq]

/-- A concrete state stamped at time 0 (stale at time 600001 ms). -/
def staleState0 : HousingConversationState :=
  { stage := .awaiting_preferences, location := none, age := none,
    ethnicity := none, preferences := none, timestamp := 0 }

/-- Witness for C5 at a concrete stale record and housing message. -/
theorem C5_witness :
    getHousingState 600001 (some staleState0) = (none, none)
    ∧ handleHousingConversation 600001 "I need housing" (some staleState0)
        = (.freshDetected, some (freshDetectedState 600001)) := by
  have h := C5_stale_state_absent_purged_fresh_flow 600001 staleState0
    "I need housing" id (by norm_num [STATE_TTL, staleState0])
  exact ⟨h.1, h.2.2.2 (by decide)⟩

/-- The gender mapping's rules transcribed from the spec sentence, in the
spec's order: exact `male`/`man` then exact `female`/`woman`, then the
`man`/`male` substring rule, then the `woman`/`female` substring rule, then
the default `female`. -/
def mapGenderSpec (genderIdentity : String) : QlooGender :=
  let lg := strLower genderIdentity
  if lg = "male" ∨ lg = "man" then .male
  else if lg = "female" ∨ lg = "woman" then .female
  else if hasSubStr "man" lg ∨ hasSubStr "male" lg then .male
  else if hasSubStr "woman" lg ∨ hasSubStr "female" lg then .female
  else .female

/-- C6: the code's gender mapping coincides with the spec's ordered rules on
every string; the four exact inputs map as stated and `non-binary` falls to
the `female` default. -/
theorem C6_gender_mapping_matches_spec_rules :
    (∀ g, mapGenderToQloo g = mapGenderSpec g)
    ∧ mapGenderToQloo "male" = .male
    ∧ mapGenderToQloo "man" = .male
    ∧ mapGenderToQloo "female" = .female
    ∧ mapGenderToQloo "woman" = .female
    ∧ mapGenderToQloo "non-binary" = .female := by
  refine ⟨fun g => rfl, ?_, ?_, ?_, ?_, ?_⟩ <;> decide

/-! ## C7: a thrown comparison call -/

/-- Concrete candidates for the three-candidate comparison scenario. -/
def personC7a : Person :=
  { id := "P1", name := "P1", role := "writer", department := "Sales",
    email := "p1@onbloom.test", location := none, culturalHeritage := none,
    ageRange := none, genderIdentity := none }

/-- Second candidate — the one whose comparison call will throw. -/
def personC7b : Person :=
  { id := "P2", name := "P2", role := "writer", department := "Sales",
    email := "p2@onbloom.test", location := none, culturalHeritage := none,
    ageRange := none, genderIdentity := none }

/-- Third candidate. -/
def personC7c : Person :=
  { id := "P3", name := "P3", role := "writer", department := "Sales",
    email := "p3@onbloom.test", location := none, culturalHeritage := none,
    ageRange := none, genderIdentity := none }

/-- The three-candidate batch. -/
def peopleC7 : List Person := [personC7a, personC7b, personC7c]

/-- Environment for the scenario: every profile search finds one entity;
the comparison call throws exactly for candidate `P2`'s entity id and
succeeds (with no results) for the other two; the second candidate's entity
shares the employee's category, so its pipeline still finds a category
overlap. -/
def envC7 : QlooEnv :=
  { search := fun q =>
      if q = "Alice" then .ok [⟨some "E1", "EntA", "catE"⟩]
      else if q = "P1" then .ok [⟨some "B1", "EntB1", "cat1"⟩]
      else if q = "P2" then .ok [⟨some "B2", "EntB2", "catE"⟩]
      else if q = "P3" then .ok [⟨some "B3", "EntB3", "cat3"⟩]
      else .ok [],
    searchTags := fun _ => .ok [],
    compareAnalysis := fun _ b => if b = ["B2"] then .error () else .ok [],
    getInsights := fun _ => .ok [],
    generateText := fun _ => .ok "insight" }

/-- C7 counterexample: the comparison call throws for exactly one of the
three candidates (`P2`), all three candidates still appear in the ranked
list, but the failed candidate's result is a normally computed one — its
commonalities are `["Shared interest in: catE"]` and its score is 0.3, not
the claimed `["Same company"]` with score 0.1. -/
theorem C7_counterexample :
    envC7.compareAnalysis ["E1"] ["B2"] = .error ()
    ∧ envC7.compareAnalysis ["E1"] ["B1"] = .ok []
    ∧ envC7.compareAnalysis ["E1"] ["B3"] = .ok []
    ∧ (findCommonalities envC7 employee0 peopleC7).length = 3
    ∧ (findPersonCommonalities envC7 employee0 personC7b).personId = "P2"
    ∧ (findPersonCommonalities envC7 employee0 personC7b).commonalities
        = ["Shared interest in: catE"]
    ∧ (findPersonCommonalities envC7 employee0 personC7b).connectionScore = 0.3
    ∧ (findPersonCommonalities envC7 employee0 personC7b).connectionScore ≠ 0.1
    ∧ (findPersonCommonalities envC7 employee0 personC7b).commonalities
        ≠ ["Same company"]
    ∧ findPersonCommonalities envC7 employee0 personC7b
        ∈ findCommonalities envC7 employee0 peopleC7 := by
  have hq : findQlooCommonalities envC7 (gatherPersonData envC7 employee0.profile)
      (gatherPersonData envC7 personC7b.profile) employee0
      = ⟨["Shared interest in: catE"], []⟩ := by rfl
  have hw : findWorkplaceCommonalities employee0 personC7b = [] := by rfl
  have hscore : (findPersonCommonalities envC7 employee0 personC7b).connectionScore
      = 0.3 := by
    rw [findPersonCommonalities_connectionScore, hq, hw]
    norm_num [calculateConnectionScore, affinityAboveSeventy, min_def]
  refine ⟨rfl, rfl, rfl, ?_, rfl, ?_, hscore, ?_, ?_, ?_⟩
  · rw [findCommonalities, findCommonalitiesWith_length]
    rfl
  · show findWorkplaceCommonalities employee0 personC7b
      ++ (findQlooCommonalities envC7 (gatherPersonData envC7 employee0.profile)
        (gatherPersonData envC7 personC7b.profile) employee0).commonInterests
      = ["Shared interest in: catE"]
    rw [hq, hw]
    rfl
  · rw [hscore]
    norm_num
  · show findWorkplaceCommonalities employee0 personC7b
      ++ (findQlooCommonalities envC7 (gatherPersonData envC7 employee0.profile)
        (gatherPersonData envC7 personC7b.profile) employee0).commonInterests
      ≠ ["Same company"]
    rw [hq, hw]
    decide
  · rw [findCommonalities, findCommonalitiesWith,
      (sortDesc_perm CommonalityResult.connectionScore _).mem_iff,
      processPeople_eq_map]
    exact List.mem_map_of_mem _ (by simp [peopleC7])

/-- C7 amended: a thrown comparison call is contained inside
`findQlooCommonalities` — the result is exactly the one computed as if the
comparison had returned no results — and the batch still yields one result
per candidate. -/
theorem C7_amended_compare_error_contained
    (env : QlooEnv) (employeeData personData : PersonData)
    (employee : Employee) (people : List Person) :
    findQlooCommonalities
        { env with compareAnalysis := fun _ _ => .error () }
        employeeData personData employee
      = findQlooCommonalities
        { env with compareAnalysis := fun _ _ => .ok [] }
        employeeData personData employee
    ∧ (findCommonalities { env with compareAnalysis := fun _ _ => .error () }
        employee people).length = people.length := by
  constructor
  · have hc : compareStep { env with compareAnalysis := fun _ _ => .error () }
        employeeData personData
        = compareStep { env with compareAnalysis := fun _ _ => .ok [] }
          employeeData personData := rfl
    simp only [findQlooCommonalities, hc]
  · rw [findCommonalities, findCommonalitiesWith_length]

/-! ## C8: the insights keep rule -/

theorem findQlooCommonalities_ok_decomp (env : QlooEnv)
    (eD pD : PersonData) (employee : Employee) (rs : List Insight)
    (hok : env.getInsights (mkInsightsParams eD pD employee) = .ok rs)
    (hguard : validEntityIds eD pD ≠ [] ∨ validTagIds eD pD ≠ []) :
    findQlooCommonalities env eD pD employee
      = ⟨dedupFirst ((compareStep env eD pD).1 ++ sharedAffinityNames rs
          ++ commonCategoryNames eD pD ++ commonTagNames eD pD),
        (compareStep env eD pD).2 ++ sharedAffinityData rs⟩ := by
  rw [findQlooCommonalities, if_pos hguard, hok]

/-- Gathered data with one employee tag (so the insights call is made) and
nothing else. -/
def employeeDataC8 : PersonData := ⟨[], [⟨some "T1", "tagA"⟩]⟩

/-- Empty gathered data for the candidate side. -/
def personDataC8 : PersonData := ⟨[], []⟩

/-- An insights response whose first three entries are below the 0.5
threshold and whose fourth is above it. -/
def insightsC8 : List Insight :=
  [⟨"A", some 0.4⟩, ⟨"B", some 0.4⟩, ⟨"C", some 0.4⟩, ⟨"D", some 0.9⟩]

/-- Environment returning `insightsC8` from the insights call. -/
def envC8 : QlooEnv :=
  { search := fun _ => .ok [], searchTags := fun _ => .ok [],
    compareAnalysis := fun _ _ => .ok [],
    getInsights := fun _ => .ok insightsC8,
    generateText := fun _ => .ok "t" }

/-- C8 counterexample: with affinities `[0.4, 0.4, 0.4, 0.9]` the claim's
filter-then-cap rule keeps the fourth entry and emits
`"Shared affinity for: D"`, but the code slices to the first 3 results
before filtering and keeps nothing. -/
theorem C8_counterexample :
    envC8.getInsights (mkInsightsParams employeeDataC8 personDataC8 employee0)
      = .ok insightsC8
    ∧ validTagIds employeeDataC8 personDataC8 = ["T1"]
    ∧ findQlooCommonalities envC8 employeeDataC8 personDataC8 employee0
        = ⟨[], []⟩
    ∧ ((insightsC8.filter affinityAboveHalf).take 3).map
        (fun i => "Shared affinity for: " ++ i.name)
      = ["Shared affinity for: D"]
    ∧ sharedAffinityNames insightsC8 = [] := by
  have hA : affinityAboveHalf ⟨"A", some 0.4⟩ = false := by
    simp only [affinityAboveHalf, decide_eq_false_iff_not]
    norm_num
  have hB : affinityAboveHalf ⟨"B", some 0.4⟩ = false := by
    simp only [affinityAboveHalf, decide_eq_false_iff_not]
    norm_num
  have hC : affinityAboveHalf ⟨"C", some 0.4⟩ = false := by
    simp only [affinityAboveHalf, decide_eq_false_iff_not]
    norm_num
  have hD : affinityAboveHalf ⟨"D", some 0.9⟩ = true := by
    simp only [affinityAboveHalf, decide_eq_true_eq]
    norm_num
  have hkept : insightsC8.filter affinityAboveHalf = [⟨"D", some 0.9⟩] := by
    simp [insightsC8, List.filter, hA, hB, hC, hD]
  have hshared : sharedAffinityNames insightsC8 = [] := by
    have htake : insightsC8.take 3 = [⟨"A", some 0.4⟩, ⟨"B", some 0.4⟩,
        ⟨"C", some 0.4⟩] := rfl
    simp [sharedAffinityNames, htake, List.filter, hA, hB, hC]
  have hdata : sharedAffinityData insightsC8 = [] := by
    have htake : insightsC8.take 3 = [⟨"A", some 0.4⟩, ⟨"B", some 0.4⟩,
        ⟨"C", some 0.4⟩] := rfl
    simp [sharedAffinityData, htake, List.filter, hA, hB, hC]
  refine ⟨rfl, rfl, ?_, ?_, hshared⟩
  · rw [findQlooCommonalities_ok_decomp envC8 employeeDataC8 personDataC8
      employee0 insightsC8 rfl (Or.inr (by decide)), hshared, hdata]
    rfl
  · rw [hkept]
    rfl

/-- C8 amended: from the insights response the code keeps exactly the
entries among the FIRST 3 results whose affinity exceeds 0.5 (the response
is capped before the affinity filter, not after), each emitted as
`"Shared affinity for: <name>"`. -/
theorem C8_amended_slice_before_filter (env : QlooEnv)
    (eD pD : PersonData) (employee : Employee) (rs : List Insight)
    (hok : env.getInsights (mkInsightsParams eD pD employee) = .ok rs)
    (hguard : validEntityIds eD pD ≠ [] ∨ validTagIds eD pD ≠ []) :
    (findQlooCommonalities env eD pD employee).commonInterests
      = dedupFirst ((compareStep env eD pD).1
          ++ ((rs.take 3).filter affinityAboveHalf).map
              (fun i => "Shared affinity for: " ++ i.name)
          ++ commonCategoryNames eD pD ++ commonTagNames eD pD)
    ∧ (findQlooCommonalities env eD pD employee).affinityData
      = (compareStep env eD pD).2 ++ (rs.take 3).filter affinityAboveHalf := by
  rw [findQlooCommonalities_ok_decomp env eD pD employee rs hok hguard]
  exact ⟨rfl, rfl⟩

/-- Witness for C8's amended statement at the concrete environment. -/
theorem C8_witness :
    (findQlooCommonalities envC8 employeeDataC8 personDataC8
        employee0).commonInterests
      = dedupFirst ((compareStep envC8 employeeDataC8 personDataC8).1
          ++ ((insightsC8.take 3).filter affinityAboveHalf).map
              (fun i => "Shared affinity for: " ++ i.name)
          ++ commonCategoryNames employeeDataC8 personDataC8
          ++ commonTagNames employeeDataC8 personDataC8) :=
  (C8_amended_slice_before_filter envC8 employeeDataC8 personDataC8 employee0
    insightsC8 rfl (Or.inr (by decide))).1

/-! ## C9: tag-search failure aborts the remaining tag searches -/

/-- A profile whose first three interest keywords are
`["alpha", "beta", "gamma"]`. -/
def pvC9 : ProfileView := ⟨"Bob", "alpha beta", "gamma", none, none⟩

/-- Environment where the first keyword's tag search throws and the entity
search for the profile's name throws. -/
def envC9 : QlooEnv :=
  { search := fun q =>
      if q = "Bob" then .error () else .ok [⟨some "EX", "EntX", "catX"⟩],
    searchTags := fun q =>
      if q = "alpha" then .error () else .ok [⟨some "TT", "tagT"⟩],
    compareAnalysis := fun _ _ => .ok [],
    getInsights := fun _ => .ok [],
    generateText := fun _ => .ok "t" }

/-- C9 counterexample: the first keyword's tag search throws while the
remaining keywords' searches would succeed, yet no tags are gathered — the
remaining tag searches are never issued.  Entity searches, by contrast,
skip their failed first query and keep going. -/
theorem C9_counterexample :
    extractInterestKeywords pvC9 = ["alpha", "beta", "gamma"]
    ∧ envC9.searchTags "alpha" = .error ()
    ∧ envC9.searchTags "beta" = .ok [⟨some "TT", "tagT"⟩]
    ∧ envC9.searchTags "gamma" = .ok [⟨some "TT", "tagT"⟩]
    ∧ (gatherPersonData envC9 pvC9).tags = []
    ∧ envC9.search "Bob" = .error ()
    ∧ (gatherPersonData envC9 pvC9).entities
        = [⟨some "EX", "EntX", "catX"⟩, ⟨some "EX", "EntX", "catX"⟩] := by
  refine ⟨rfl, rfl, rfl, rfl, rfl, rfl, rfl⟩

/-- C9 amended: each of the first 3 interest keywords feeds the tag-search
loop, but the loop's single try/catch sits outside it: a keyword's failure
returns only the tags gathered so far and the remaining keywords are never
issued.  Entity gathering is unaffected by tag-search behaviour. -/
theorem C9_amended_tag_failure_aborts_loop (env : QlooEnv)
    (person : ProfileView) (k : String) (post : List String)
    (acc : List QTag) (hfail : env.searchTags k = .error ()) :
    (gatherPersonData env person).tags
      = gatherTagsLoop env [] ((extractInterestKeywords person).take 3)
    ∧ gatherTagsLoop env acc (k :: post) = acc
    ∧ ∀ envB : QlooEnv, envB.search = env.search →
        (gatherPersonData envB person).entities
          = (gatherPersonData env person).entities := by
  refine ⟨rfl, ?_, ?_⟩
  · rw [gatherTagsLoop, hfail]
  · intro envB hs
    have hloop : ∀ l, gatherEntitiesLoop envB l = gatherEntitiesLoop env l := by
      intro l
      induction l with
      | nil => rfl
      | cons q rest ih => rw [gatherEntitiesLoop, gatherEntitiesLoop, hs, ih]
    simp only [gatherPersonData, hloop]

/-- Witness for C9's amended statement: the concrete aborting loop. -/
theorem C9_witness :
    gatherTagsLoop envC9 [] ["alpha", "beta", "gamma"] = [] :=
  (C9_amended_tag_failure_aborts_loop envC9 pvC9 "alpha" ["beta", "gamma"]
    [] rfl).2.1

/-! ## C10: the 20-message cap -/

/-- Every stored conversation record holds at most `MAX_MESSAGES` messages. -/
def boundedStore (store : String → Option ConversationHistory) : Prop :=
  ∀ k h, store k = some h → h.messages.length ≤ MAX_MESSAGES

theorem lastN_length_le {α : Type} (n : ℕ) (l : List α) :
    (lastN n l).length ≤ n := by
  simp only [lastN, List.length_drop]
  omega

theorem addMessage_bounded (now : ℕ)
    (store : String → Option ConversationHistory) (userId : String)
    (message : Message) (channelId : Option String)
    (hb : boundedStore store) :
    boundedStore (addMessage now store userId message channelId) := by
  intro k h hk
  simp only [addMessage] at hk
  by_cases hkey : k = getKey userId channelId
  · rw [if_pos hkey] at hk
    cases hk
    exact lastN_length_le _ _
  · rw [if_neg hkey] at hk
    exact hb k h hk

theorem applyAdds_bounded
    (ops : List (ℕ × String × Message × Option String)) :
    ∀ store, boundedStore store → boundedStore (applyAdds store ops) := by
  induction ops with
  | nil => intro store hb; exact hb
  | cons op rest ih =>
    intro store hb
    obtain ⟨now, userId, message, channelId⟩ := op
    exact ih _ (addMessage_bounded now store userId message channelId hb)

/-- The record `addMessage` writes: the previous messages plus the new one,
trimmed to the last `MAX_MESSAGES`. -/
def trimmedWrite (now : ℕ) (prev : List Message) (message : Message) :
    ConversationHistory :=
  { messages := lastN MAX_MESSAGES (prev ++ [message]), lastUpdated := now }

/-- C10: `addMessage` writes exactly the previous history plus the new
message, trimmed to the last 20; consequently, after any sequence of adds
from an empty store, `getConversationHistory` returns at most 20 messages
for every user/channel key. -/
theorem C10_history_capped_at_twenty :
    (∀ now (store : String → Option ConversationHistory) userId message
        channelId,
      addMessage now store userId message channelId (getKey userId channelId)
        = some (trimmedWrite now
            (getConversationHistory store userId channelId) message))
    ∧ (∀ (ops : List (ℕ × String × Message × Option String)) userId channelId,
        (getConversationHistory (applyAdds emptyStore ops) userId
          channelId).length ≤ MAX_MESSAGES) := by
  constructor
  · intro now store userId message channelId
    cases hsk : store (getKey userId channelId) <;>
      simp [addMessage, getConversationHistory, trimmedWrite, hsk]
  · intro ops userId channelId
    have hb : boundedStore (applyAdds emptyStore ops) :=
      applyAdds_bounded ops emptyStore (fun k h hk => by
        simp [emptyStore] at hk)
    rw [getConversationHistory]
    cases hsk : applyAdds emptyStore ops (getKey userId channelId) with
    | none => simp
    | some data => exact hb _ data hsk
